import Mathlib

/-!
Verification development for the remote-control-backend server
(`src/server.js`): a shallow embedding of the session registry, the
websocket message handler (command dispatch), the coordinate clamping of
`case 'move'`, and the periodic idle-session cleanup sweep, together with
theorems about them.
-/

namespace RemoteControl

/-- A JavaScript value that can appear in a decoded JSON command field,
restricted to the value shapes the dispatch logic inspects.  `undef`
models an absent property (`data.deltaX === undefined`). -/
inductive JSVal where
  | undef
  | jnull
  | jbool (b : Bool)
  | jnum (n : Int)
deriving DecidableEq

/-- A JavaScript number that is either a finite (here: integral) number or
`NaN`.  The deltas the mobile client sends are pixel amounts; only
integral values are modelled. -/
inductive JSNum where
  | nan
  | num (n : Int)
deriving DecidableEq

/-- JS `ToNumber` on the embedded value shapes: `undefined` converts to
`NaN`, `null` to `+0`, booleans to `0`/`1`. -/
def toNumber : JSVal → JSNum
  | .undef => .nan
  | .jnull => .num 0
  | .jbool b => .num (if b then 1 else 0)
  | .jnum n => .num n

/-- JS `+` on numbers: `NaN` is absorbing. -/
def JSNum.add : JSNum → JSNum → JSNum
  | .num a, .num b => .num (a + b)
  | _, _ => .nan

/-- `Math.min`: returns `NaN` if any argument is `NaN`. -/
def jsMin : JSNum → JSNum → JSNum
  | .num a, .num b => .num (min a b)
  | _, _ => .nan

/-- `Math.max`: returns `NaN` if any argument is `NaN`. -/
def jsMax : JSNum → JSNum → JSNum
  | .num a, .num b => .num (max a b)
  | _, _ => .nan

/-- The clamp expression of `case 'move'` (src/server.js:565-566):
`Math.max(0, Math.min(bound - 1, cur + delta))`, where `bound` is the
screen extent, `cur` the current pointer coordinate and `delta` the raw
message field. -/
def moveClamp (bound cur : Int) (delta : JSVal) : JSNum :=
  jsMax (.num 0) (jsMin (.num (bound - 1)) (JSNum.add (.num cur) (toNumber delta)))

/-- Whether a JS value is of number type. -/
def isNumeric : JSVal → Bool
  | .jnum _ => true
  | _ => false

/-- JS truthiness on the embedded value shapes. -/
def truthy : JSVal → Bool
  | .undef => false
  | .jnull => false
  | .jbool b => b
  | .jnum n => n != 0

/-- The `v || 0` defaulting used by `case 'scroll'` (src/server.js:582). -/
def orZero (v : JSVal) : JSVal :=
  if truthy v then v else .jnum 0

/-- The scroll amount actually passed to the capability: `v || 0`
followed by numeric coercion. -/
def scrollAmt (v : JSVal) : Int :=
  match toNumber (orZero v) with
  | .num n => n
  | .nan => 0

/-- One session record (src/server.js:516-522).  Timestamps are epoch
milliseconds.  `wsId` identifies the underlying socket object and
`readyState` is that socket's readyState (`1` = OPEN); `ip` is the remote
address captured at creation. -/
structure Session where
  id : String
  wsId : Nat
  readyState : Nat
  ip : String
  connectedAt : Nat
  lastActivity : Nat
deriving DecidableEq

/-- The `sessions` Map (src/server.js:473), modelled as an
insertion-ordered association list, as a JS `Map` iterates in insertion
order. -/
abbrev Registry := List (String × Session)

/-- The keys of the registry, in iteration order. -/
def keysOf (m : Registry) : List String :=
  m.map (fun e => e.1)

/-- `Map.prototype.get`. -/
def mapGet : Registry → String → Option Session
  | [], _ => none
  | e :: es, k => if e.1 = k then some e.2 else mapGet es k

/-- `Map.prototype.has`. -/
def mapHasKey : Registry → String → Bool
  | [], _ => false
  | e :: es, k => if e.1 = k then true else mapHasKey es k

/-- Replace the value stored under an existing key, keeping its position. -/
def mapReplace : Registry → String → Session → Registry
  | [], _, _ => []
  | e :: es, k, v => if e.1 = k then (k, v) :: mapReplace es k v else e :: mapReplace es k v

/-- `Map.prototype.set`: replaces in place when the key is present,
appends otherwise. -/
def mapSet (m : Registry) (k : String) (v : Session) : Registry :=
  if mapHasKey m k then mapReplace m k v else m ++ [(k, v)]

/-- `Map.prototype.delete`. -/
def mapDelete (m : Registry) (k : String) : Registry :=
  m.filter (fun e => decide (e.1 ≠ k))

/-- The observable state of the RobotJS capability: the screen size and
mouse position it reports, plus a log of the click and scroll calls
issued through it. -/
structure RobotState where
  width : Int
  height : Int
  mouseX : Int
  mouseY : Int
  clicks : List String
  scrolls : List (Int × Int)
deriving DecidableEq

/-- The fields of a parsed inbound message that the dispatch switch
inspects.  `type := none` models a payload without a string `type`
discriminator (such payloads fall through the switch, or throw on the
property access after the session was already touched — observationally
the same registry effect); `sessionId := none` models an absent
`data.sessionId`. -/
structure MsgData where
  type : Option String
  sessionId : Option String
  deltaX : JSVal
  deltaY : JSVal
deriving DecidableEq

/-- One inbound websocket message: either `JSON.parse` succeeds and
yields the given payload, or it throws (malformed). -/
inductive InMsg where
  | malformed
  | parsed (data : MsgData)
deriving DecidableEq

/-- The state visible to one connection's message handler: the shared
session registry, the shared robot capability (`none` when RobotJS failed
to load), and this connection's `ws.sessionId` addressing key. -/
structure ConnState where
  sessions : Registry
  robot : Option RobotState
  wsKey : String
deriving DecidableEq

/-- `case 'setSessionId'` (src/server.js:547-557): if `data.sessionId` is
truthy, the record's `id` field is overwritten, the old key is deleted,
the record is stored under the new key — unconditionally, even when the
new key already holds another live session — and the connection's
addressing key switches to the new id. -/
def renameUpdate (st : ConnState) (session : Session) (sid : Option String) : ConnState :=
  match sid with
  | some newId =>
    if newId ≠ "" then
      { st with
        sessions := mapSet (mapDelete st.sessions st.wsKey) newId
          { session with id := newId },
        wsKey := newId }
    else st
  | none => st

/-- The `robot.moveMouse(newX, newY)` call (src/server.js:568).  A `NaN`
coordinate is modelled as the capability raising (the capability's own
implementation is external to this repository); the handler's surrounding
`catch` swallows the exception, so the state is unchanged in that case. -/
def moveUpdate (st : ConnState) (robot : RobotState) (nx ny : JSNum) : ConnState :=
  match nx, ny with
  | .num x, .num y => { st with robot := some { robot with mouseX := x, mouseY := y } }
  | _, _ => st

/-- The body of `switch (data.type)` (src/server.js:546-585), run after
the session was touched and the robot was checked non-null.  `session` is
the touched record of this connection.  An unmatched (or absent) `type`
falls through without effect. -/
def dispatchCommand (st : ConnState) (robot : RobotState) (session : Session)
    (d : MsgData) : ConnState :=
  if d.type = some "setSessionId" then
    renameUpdate st session d.sessionId
  else if d.type = some "move" then
    moveUpdate st robot
      (moveClamp robot.width robot.mouseX d.deltaX)
      (moveClamp robot.height robot.mouseY d.deltaY)
  else if d.type = some "click" then
    { st with robot := some { robot with clicks := robot.clicks ++ ["left"] } }
  else if d.type = some "rightClick" then
    { st with robot := some { robot with clicks := robot.clicks ++ ["right"] } }
  else if d.type = some "scroll" then
    { st with robot := some { robot with
        scrolls := robot.scrolls ++ [(scrollAmt d.deltaX, scrollAmt d.deltaY)] } }
  else st

/-- The `ws.on('message')` handler (src/server.js:531-590).  `now` is the
`new Date()` value used for `lastActivity`.  A `JSON.parse` failure is
caught by the surrounding `try`/`catch` before the session is touched, so
nothing changes.  When the session is found it is touched first; if the
robot capability is absent the handler then returns (src/server.js:
540-543) before the switch. -/
def handleMessage (st : ConnState) (now : Nat) (msg : InMsg) : ConnState :=
  match msg with
  | .malformed => st
  | .parsed d =>
    match mapGet st.sessions st.wsKey with
    | none => st
    | some session =>
      match st.robot with
      | none =>
        { st with sessions := mapSet st.sessions st.wsKey { session with lastActivity := now } }
      | some robot =>
        dispatchCommand
          { st with sessions := mapSet st.sessions st.wsKey { session with lastActivity := now } }
          robot { session with lastActivity := now } d

/-- `SESSION_TIMEOUT` (src/server.js:475): 30 minutes in milliseconds. -/
def SESSION_TIMEOUT : Nat := 30 * 60 * 1000

/-- Whether a cleanup sweep at time `now` evicts the session:
`inactiveTime > SESSION_TIMEOUT` (src/server.js:487-488). -/
def stale (now : Nat) (s : Session) : Bool :=
  decide (now - s.lastActivity > SESSION_TIMEOUT)

/-- The registry after one cleanup sweep (src/server.js:482-501): every
stale entry is deleted. -/
def sweep (now : Nat) (m : Registry) : Registry :=
  m.filter (fun e => !(stale now e.2))

/-- The keys of the sessions whose `ws.close()` the sweep invokes: stale
entries whose socket has `readyState === 1` (src/server.js:490-492). -/
def sweepClosed (now : Nat) (m : Registry) : List String :=
  (m.filter (fun e => stale now e.2 && e.2.readyState == 1)).map (fun e => e.1)

/-- `generateSessionId` (src/server.js:477-479): the counter is
pre-incremented and combined with the current time. -/
def generateSessionId (counter : Nat) (now : Nat) : String :=
  "session_" ++ toString (counter + 1) ++ "_" ++ toString now

/-- The connection-accept path (src/server.js:511-529): create a fresh
session record and insert it.  Returns the new registry, the new counter
value and the connection's `ws.sessionId` key. -/
def connect (m : Registry) (counter : Nat) (now : Nat) (ip : String) (wsId : Nat) :
    Registry × Nat × String :=
  let sid := generateSessionId counter now
  (mapSet m sid
      { id := sid, wsId := wsId, readyState := 1, ip := ip,
        connectedAt := now, lastActivity := now },
    counter + 1, sid)

/-- The `ws.on('close')` / `ws.on('error')` teardown (src/server.js:
592-609): delete this connection's session; idempotent. -/
def closeConn (m : Registry) (wsKey : String) : Registry :=
  mapDelete m wsKey

/-- Registry well-formedness: keys are pairwise distinct and each
record's `id` field equals the key it is stored under. -/
def RegistryWF (m : Registry) : Prop :=
  (keysOf m).Nodup ∧ ∀ e ∈ m, (Prod.snd e).id = Prod.fst e

instance (m : Registry) : Decidable (RegistryWF m) := by
  unfold RegistryWF
  infer_instance

/-- Shorthand for the wire `move` message with numeric deltas. -/
def moveMsg (dx dy : Int) : MsgData :=
  ⟨some "move", none, .jnum dx, .jnum dy⟩

/-- The sessions-and-robot state shared by all connections. -/
structure ServerState where
  sessions : Registry
  robot : Option RobotState
deriving DecidableEq

/-- One message-handler invocation seen from the shared state: the event
carries the receiving connection's key, the time, and the message.  Each
invocation is atomic: Node's event loop runs each `ws.on('message')`
callback synchronously to completion. -/
def applyEvent (sv : ServerState) (ev : String × Nat × InMsg) : ServerState :=
  let st := handleMessage ⟨sv.sessions, sv.robot, ev.1⟩ ev.2.1 ev.2.2
  ⟨st.sessions, st.robot⟩

/-- A sequence of handler invocations. -/
def applyEvents (sv : ServerState) (evs : List (String × Nat × InMsg)) : ServerState :=
  evs.foldl applyEvent sv

/-! ### Basic lemmas about the registry map operations -/

theorem keysOf_nil : keysOf [] = [] := rfl

theorem keysOf_cons (e : String × Session) (es : Registry) :
    keysOf (e :: es) = e.1 :: keysOf es := rfl

theorem mapGet_cons (e : String × Session) (es : Registry) (k : String) :
    mapGet (e :: es) k = if e.1 = k then some e.2 else mapGet es k := rfl

theorem mapHasKey_cons (e : String × Session) (es : Registry) (k : String) :
    mapHasKey (e :: es) k = if e.1 = k then true else mapHasKey es k := rfl

theorem mapReplace_cons (e : String × Session) (es : Registry) (k : String) (v : Session) :
    mapReplace (e :: es) k v =
      if e.1 = k then (k, v) :: mapReplace es k v else e :: mapReplace es k v := rfl

theorem mapDelete_cons (e : String × Session) (es : Registry) (k : String) :
    mapDelete (e :: es) k =
      if e.1 = k then mapDelete es k else e :: mapDelete es k := by
  by_cases he : e.1 = k <;> simp [mapDelete, List.filter_cons, he]

theorem mapHasKey_iff (m : Registry) (k : String) :
    mapHasKey m k = true ↔ k ∈ keysOf m := by
  induction m with
  | nil => simp [mapHasKey, keysOf]
  | cons e es ih =>
    rw [mapHasKey_cons, keysOf_cons]
    by_cases h : e.1 = k
    · simp [h]
    · rw [if_neg h, ih, List.mem_cons]
      constructor
      · exact Or.inr
      · rintro (h1 | h2)
        · exact absurd h1.symm h
        · exact h2

theorem mapGet_isSome_eq (m : Registry) (k : String) :
    (mapGet m k).isSome = mapHasKey m k := by
  induction m with
  | nil => rfl
  | cons e es ih =>
    rw [mapGet_cons, mapHasKey_cons]
    by_cases h : e.1 = k
    · simp [h]
    · simp [h, ih]

theorem mapGet_eq_none_iff (m : Registry) (k : String) :
    mapGet m k = none ↔ k ∉ keysOf m := by
  rw [← mapHasKey_iff, ← mapGet_isSome_eq]
  cases mapGet m k <;> simp

theorem mem_of_mapGet {m : Registry} {k : String} {s : Session}
    (h : mapGet m k = some s) : (k, s) ∈ m := by
  induction m with
  | nil => simp [mapGet] at h
  | cons e es ih =>
    rw [mapGet_cons] at h
    by_cases he : e.1 = k
    · rw [if_pos he] at h
      have : e = (k, s) := Prod.ext he (Option.some_injective _ h)
      rw [← this]; exact List.mem_cons_self e es
    · rw [if_neg he] at h
      exact List.mem_cons_of_mem _ (ih h)

theorem mapGet_mapReplace_self {m : Registry} {k : String} (v : Session)
    (h : mapHasKey m k = true) : mapGet (mapReplace m k v) k = some v := by
  induction m with
  | nil => simp [mapHasKey] at h
  | cons e es ih =>
    rw [mapReplace_cons]
    by_cases he : e.1 = k
    · rw [if_pos he, mapGet_cons]; simp
    · rw [mapHasKey_cons, if_neg he] at h
      rw [if_neg he, mapGet_cons, if_neg he]
      exact ih h

theorem mapGet_mapReplace_ne {m : Registry} {k q : String} (v : Session)
    (h : q ≠ k) : mapGet (mapReplace m k v) q = mapGet m q := by
  induction m with
  | nil => rfl
  | cons e es ih =>
    rw [mapReplace_cons]
    by_cases he : e.1 = k
    · rw [if_pos he, mapGet_cons, mapGet_cons,
        if_neg (fun hh : (k, v).1 = q => h hh.symm),
        if_neg (fun hh : e.1 = q => h (hh.symm.trans he))]
      exact ih
    · rw [if_neg he, mapGet_cons, mapGet_cons]
      by_cases heq : e.1 = q
      · rw [if_pos heq, if_pos heq]
      · rw [if_neg heq, if_neg heq]; exact ih

theorem mapGet_append_of_none {m1 : Registry} (m2 : Registry) {k : String}
    (h : mapGet m1 k = none) : mapGet (m1 ++ m2) k = mapGet m2 k := by
  induction m1 with
  | nil => rfl
  | cons e es ih =>
    rw [mapGet_cons] at h
    rw [List.cons_append, mapGet_cons]
    by_cases he : e.1 = k
    · rw [if_pos he] at h; exact absurd h (by simp)
    · rw [if_neg he] at h
      rw [if_neg he]
      exact ih h

theorem mapGet_append_of_some {m1 : Registry} (m2 : Registry) {k : String} {s : Session}
    (h : mapGet m1 k = some s) : mapGet (m1 ++ m2) k = some s := by
  induction m1 with
  | nil => simp [mapGet] at h
  | cons e es ih =>
    rw [mapGet_cons] at h
    rw [List.cons_append, mapGet_cons]
    by_cases he : e.1 = k
    · rw [if_pos he] at h; rw [if_pos he]; exact h
    · rw [if_neg he] at h; rw [if_neg he]; exact ih h

theorem not_hasKey_get_none {m : Registry} {k : String}
    (h : ¬mapHasKey m k = true) : mapGet m k = none := by
  rw [mapGet_eq_none_iff]
  intro hk
  exact h ((mapHasKey_iff m k).mpr hk)

theorem mapGet_mapSet_self (m : Registry) (k : String) (v : Session) :
    mapGet (mapSet m k v) k = some v := by
  unfold mapSet
  by_cases h : mapHasKey m k
  · rw [if_pos h]; exact mapGet_mapReplace_self v h
  · rw [if_neg h, mapGet_append_of_none _ (not_hasKey_get_none h), mapGet_cons]
    simp

theorem mapGet_mapSet_ne (m : Registry) {k q : String} (v : Session)
    (h : q ≠ k) : mapGet (mapSet m k v) q = mapGet m q := by
  unfold mapSet
  by_cases hk : mapHasKey m k
  · rw [if_pos hk]; exact mapGet_mapReplace_ne v h
  · rw [if_neg hk]
    cases hq : mapGet m q with
    | some s => exact mapGet_append_of_some _ hq
    | none =>
      rw [mapGet_append_of_none _ hq, mapGet_cons,
        if_neg (fun hh : (k, v).1 = q => h hh.symm)]
      rfl

theorem mapGet_mapDelete_self (m : Registry) (k : String) :
    mapGet (mapDelete m k) k = none := by
  induction m with
  | nil => rfl
  | cons e es ih =>
    rw [mapDelete_cons]
    by_cases he : e.1 = k
    · rw [if_pos he]; exact ih
    · rw [if_neg he, mapGet_cons, if_neg he]; exact ih

theorem mapGet_mapDelete_ne (m : Registry) {k q : String}
    (h : q ≠ k) : mapGet (mapDelete m k) q = mapGet m q := by
  induction m with
  | nil => rfl
  | cons e es ih =>
    rw [mapDelete_cons, mapGet_cons]
    by_cases he : e.1 = k
    · rw [if_pos he, ih, if_neg (fun hh : e.1 = q => h (hh.symm.trans he))]
    · rw [if_neg he, mapGet_cons]
      by_cases heq : e.1 = q
      · rw [if_pos heq, if_pos heq]
      · rw [if_neg heq, if_neg heq]; exact ih

theorem keysOf_mapReplace (m : Registry) (k : String) (v : Session) :
    keysOf (mapReplace m k v) = keysOf m := by
  induction m with
  | nil => rfl
  | cons e es ih =>
    rw [mapReplace_cons]
    by_cases he : e.1 = k
    · rw [if_pos he, keysOf_cons, keysOf_cons, ih, he]
    · rw [if_neg he, keysOf_cons, keysOf_cons, ih]

theorem keysOf_mapSet_of_hasKey {m : Registry} {k : String} (v : Session)
    (h : mapHasKey m k = true) : keysOf (mapSet m k v) = keysOf m := by
  unfold mapSet
  rw [if_pos h]
  exact keysOf_mapReplace m k v

theorem keysOf_mapSet_of_not {m : Registry} {k : String} (v : Session)
    (h : ¬mapHasKey m k = true) : keysOf (mapSet m k v) = keysOf m ++ [k] := by
  unfold mapSet
  rw [if_neg h]
  simp [keysOf]

theorem mem_mapReplace {m : Registry} {k : String} {v : Session} {e : String × Session}
    (h : e ∈ mapReplace m k v) : e = (k, v) ∨ e ∈ m := by
  induction m with
  | nil => simp [mapReplace] at h
  | cons e2 es ih =>
    rw [mapReplace_cons] at h
    by_cases he : e2.1 = k
    · rw [if_pos he, List.mem_cons] at h
      rcases h with h | h
      · exact Or.inl h
      · rcases ih h with h | h
        · exact Or.inl h
        · exact Or.inr (List.mem_cons_of_mem _ h)
    · rw [if_neg he, List.mem_cons] at h
      rcases h with h | h
      · exact Or.inr (h ▸ List.mem_cons_self e2 es)
      · rcases ih h with h | h
        · exact Or.inl h
        · exact Or.inr (List.mem_cons_of_mem _ h)

theorem mem_mapSet {m : Registry} {k : String} {v : Session} {e : String × Session}
    (h : e ∈ mapSet m k v) : e = (k, v) ∨ e ∈ m := by
  unfold mapSet at h
  by_cases hk : mapHasKey m k
  · rw [if_pos hk] at h; exact mem_mapReplace h
  · rw [if_neg hk, List.mem_append] at h
    rcases h with h | h
    · exact Or.inr h
    · simp at h; exact Or.inl h

theorem mem_mapDelete {m : Registry} {k : String} {e : String × Session}
    (h : e ∈ mapDelete m k) : e ∈ m := by
  unfold mapDelete at h
  exact List.mem_of_mem_filter h

theorem keysOf_filter_sublist (m : Registry) (p : String × Session → Bool) :
    List.Sublist (keysOf (m.filter p)) (keysOf m) :=
  List.Sublist.map _ (List.filter_sublist m)

theorem keysOf_mapDelete_sublist (m : Registry) (k : String) :
    List.Sublist (keysOf (mapDelete m k)) (keysOf m) :=
  List.Sublist.map _ (List.filter_sublist m)

theorem RegistryWF_mapSet {m : Registry} {k : String} {v : Session}
    (hwf : RegistryWF m) (hv : v.id = k) : RegistryWF (mapSet m k v) := by
  obtain ⟨hnd, hid⟩ := hwf
  refine ⟨?_, ?_⟩
  · by_cases h : mapHasKey m k
    · rw [keysOf_mapSet_of_hasKey v h]; exact hnd
    · rw [keysOf_mapSet_of_not v h]
      have hk : k ∉ keysOf m := fun hk => h ((mapHasKey_iff m k).mpr hk)
      simp [List.nodup_append, hnd, hk]
  · intro e he
    rcases mem_mapSet he with rfl | hm
    · exact hv
    · exact hid e hm

theorem RegistryWF_mapDelete {m : Registry} (k : String)
    (hwf : RegistryWF m) : RegistryWF (mapDelete m k) := by
  obtain ⟨hnd, hid⟩ := hwf
  refine ⟨hnd.sublist (keysOf_mapDelete_sublist m k), ?_⟩
  intro e he
  exact hid e (mem_mapDelete he)

theorem mapGet_id {m : Registry} (hwf : RegistryWF m) {k : String} {s : Session}
    (h : mapGet m k = some s) : s.id = k :=
  hwf.2 (k, s) (mem_of_mapGet h)

/-- Under a well-formed registry, looking a key up in a filtered registry
keeps the record exactly when the filter keeps its entry. -/
theorem mapGet_filter {m : Registry} {k : String} {s : Session}
    (hnd : (keysOf m).Nodup) (h : mapGet m k = some s) (p : String × Session → Bool) :
    mapGet (m.filter p) k = if p (k, s) then some s else none := by
  induction m with
  | nil => simp [mapGet] at h
  | cons e es ih =>
    rw [keysOf_cons, List.nodup_cons] at hnd
    rw [mapGet_cons] at h
    rw [List.filter_cons]
    by_cases he : e.1 = k
    · rw [if_pos he] at h
      have hes : e = (k, s) := Prod.ext he (Option.some_injective _ h)
      subst hes
      have hknotin : k ∉ keysOf es := hnd.1
      by_cases hp : p (k, s)
      · rw [if_pos hp, if_pos hp, mapGet_cons, if_pos rfl]
      · rw [if_neg hp, if_neg hp, mapGet_eq_none_iff]
        intro hmem
        exact hknotin ((keysOf_filter_sublist es p).subset hmem)
    · rw [if_neg he] at h
      by_cases hp : p e
      · rw [if_pos hp, mapGet_cons, if_neg he]
        exact ih hnd.2 h
      · rw [if_neg hp]
        exact ih hnd.2 h

/-! ### Characterization of the message handler branches -/

theorem handleMessage_malformed (st : ConnState) (now : Nat) :
    handleMessage st now .malformed = st := rfl

theorem handleMessage_absent {st : ConnState} (now : Nat) (d : MsgData)
    (h : mapGet st.sessions st.wsKey = none) :
    handleMessage st now (.parsed d) = st := by
  unfold handleMessage
  rw [h]

theorem handleMessage_norobot {st : ConnState} (now : Nat) (d : MsgData) {s : Session}
    (hr : st.robot = none) (hs : mapGet st.sessions st.wsKey = some s) :
    handleMessage st now (.parsed d) =
      { st with sessions := mapSet st.sessions st.wsKey { s with lastActivity := now } } := by
  unfold handleMessage
  rw [hs, hr]

theorem moveUpdate_robot_only (st : ConnState) (robot : RobotState) (nx ny : JSNum) :
    ∃ rb, moveUpdate st robot nx ny = { st with robot := rb } := by
  cases nx <;> cases ny <;> exact ⟨_, rfl⟩

theorem dispatchCommand_robot_only (st : ConnState) (robot : RobotState)
    (session : Session) (d : MsgData) (h : d.type ≠ some "setSessionId") :
    ∃ rb, dispatchCommand st robot session d = { st with robot := rb } := by
  unfold dispatchCommand
  rw [if_neg h]
  by_cases h2 : d.type = some "move"
  · rw [if_pos h2]; exact moveUpdate_robot_only _ _ _ _
  · rw [if_neg h2]
    by_cases h3 : d.type = some "click"
    · rw [if_pos h3]; exact ⟨_, rfl⟩
    · rw [if_neg h3]
      by_cases h4 : d.type = some "rightClick"
      · rw [if_pos h4]; exact ⟨_, rfl⟩
      · rw [if_neg h4]
        by_cases h5 : d.type = some "scroll"
        · rw [if_pos h5]; exact ⟨_, rfl⟩
        · rw [if_neg h5]; exact ⟨st.robot, rfl⟩

theorem handleMessage_not_rename {st : ConnState} (now : Nat) (d : MsgData) {s : Session}
    (hs : mapGet st.sessions st.wsKey = some s) (hT : d.type ≠ some "setSessionId") :
    ∃ rb, handleMessage st now (.parsed d) =
      { st with
        sessions := mapSet st.sessions st.wsKey { s with lastActivity := now },
        robot := rb } := by
  unfold handleMessage
  rw [hs]
  cases hr : st.robot with
  | none => exact ⟨st.robot, by rw [hr]⟩
  | some robot => exact dispatchCommand_robot_only _ _ _ _ hT

theorem handleMessage_rename {st : ConnState} (now : Nat) (d : MsgData)
    {s : Session} {r : RobotState} {newId : String}
    (hr : st.robot = some r) (hs : mapGet st.sessions st.wsKey = some s)
    (hT : d.type = some "setSessionId") (hS : d.sessionId = some newId)
    (hne : newId ≠ "") :
    handleMessage st now (.parsed d) =
      { st with
        sessions := mapSet
          (mapDelete (mapSet st.sessions st.wsKey { s with lastActivity := now }) st.wsKey)
          newId { s with id := newId, lastActivity := now },
        wsKey := newId } := by
  simp [handleMessage, dispatchCommand, renameUpdate, hs, hr, hT, hS, hne]

theorem handleMessage_move {st : ConnState} (now : Nat) {r : RobotState} {s : Session}
    (dx dy : Int) (hr : st.robot = some r) (hs : mapGet st.sessions st.wsKey = some s) :
    handleMessage st now (.parsed (moveMsg dx dy)) =
      { st with
        sessions := mapSet st.sessions st.wsKey { s with lastActivity := now },
        robot := some { r with
          mouseX := max 0 (min (r.width - 1) (r.mouseX + dx)),
          mouseY := max 0 (min (r.height - 1) (r.mouseY + dy)) } } := by
  simp [handleMessage, dispatchCommand, moveMsg, moveUpdate, moveClamp, toNumber,
    JSNum.add, jsMin, jsMax, hs, hr]

theorem moveUpdate_nan (st : ConnState) (robot : RobotState) (nx ny : JSNum)
    (h : nx = JSNum.nan ∨ ny = JSNum.nan) : moveUpdate st robot nx ny = st := by
  rcases h with h | h
  · subst h; cases ny <;> rfl
  · subst h; cases nx <;> rfl

theorem handleMessage_move_nan {st : ConnState} (now : Nat) {r : RobotState} {s : Session}
    (dX dY : JSVal) (hr : st.robot = some r) (hs : mapGet st.sessions st.wsKey = some s)
    (hnan : moveClamp r.width r.mouseX dX = JSNum.nan ∨
      moveClamp r.height r.mouseY dY = JSNum.nan) :
    handleMessage st now (.parsed ⟨some "move", none, dX, dY⟩) =
      { st with sessions := mapSet st.sessions st.wsKey { s with lastActivity := now } } := by
  have hneq : (some "move" : Option String) ≠ some "setSessionId" := by decide
  simp only [handleMessage, hs, hr, dispatchCommand]
  rw [if_neg hneq, if_pos trivial, moveUpdate_nan _ _ _ _ hnan]

theorem handleMessage_rename_falsy {st : ConnState} (now : Nat) (d : MsgData)
    {r : RobotState} {s : Session}
    (hr : st.robot = some r) (hs : mapGet st.sessions st.wsKey = some s)
    (hT : d.type = some "setSessionId")
    (hS : d.sessionId = none ∨ d.sessionId = some "") :
    handleMessage st now (.parsed d) =
      { st with sessions := mapSet st.sessions st.wsKey { s with lastActivity := now } } := by
  rcases hS with hS | hS <;>
    simp [handleMessage, dispatchCommand, renameUpdate, hs, hr, hT, hS]

theorem handleMessage_touch {st : ConnState} (now : Nat) (d : MsgData) {s : Session}
    (hs : mapGet st.sessions st.wsKey = some s) :
    ∃ s2, mapGet (handleMessage st now (.parsed d)).sessions
        (handleMessage st now (.parsed d)).wsKey = some s2 ∧
      s2.lastActivity = now := by
  by_cases hT : d.type = some "setSessionId"
  · cases hr : st.robot with
    | none =>
      rw [handleMessage_norobot now d hr hs]
      exact ⟨_, mapGet_mapSet_self _ _ _, rfl⟩
    | some r =>
      cases hS : d.sessionId with
      | none =>
        rw [handleMessage_rename_falsy now d hr hs hT (Or.inl hS)]
        exact ⟨_, mapGet_mapSet_self _ _ _, rfl⟩
      | some newId =>
        by_cases hne : newId = ""
        · rw [handleMessage_rename_falsy now d hr hs hT (Or.inr (hne ▸ hS))]
          exact ⟨_, mapGet_mapSet_self _ _ _, rfl⟩
        · rw [handleMessage_rename now d hr hs hT hS hne]
          exact ⟨_, mapGet_mapSet_self _ _ _, rfl⟩
  · obtain ⟨rb, he⟩ := handleMessage_not_rename now d hs hT
    rw [he]
    exact ⟨_, mapGet_mapSet_self _ _ _, rfl⟩

theorem RegistryWF_filter (m : Registry) (p : String × Session → Bool)
    (hwf : RegistryWF m) : RegistryWF (m.filter p) :=
  ⟨hwf.1.sublist (keysOf_filter_sublist m p), fun e he => hwf.2 e (List.mem_of_mem_filter he)⟩

theorem handleMessage_WF (st : ConnState) (now : Nat) (msg : InMsg)
    (hwf : RegistryWF st.sessions) : RegistryWF (handleMessage st now msg).sessions := by
  cases msg with
  | malformed => exact hwf
  | parsed d =>
    cases hs : mapGet st.sessions st.wsKey with
    | none => rw [handleMessage_absent now d hs]; exact hwf
    | some s =>
      have hid : s.id = st.wsKey := mapGet_id hwf hs
      have hwf1 : RegistryWF (mapSet st.sessions st.wsKey { s with lastActivity := now }) :=
        RegistryWF_mapSet hwf hid
      by_cases hT : d.type = some "setSessionId"
      · cases hr : st.robot with
        | none => rw [handleMessage_norobot now d hr hs]; exact hwf1
        | some r =>
          cases hS : d.sessionId with
          | none => rw [handleMessage_rename_falsy now d hr hs hT (Or.inl hS)]; exact hwf1
          | some newId =>
            by_cases hne : newId = ""
            · rw [handleMessage_rename_falsy now d hr hs hT (Or.inr (hne ▸ hS))]; exact hwf1
            · rw [handleMessage_rename now d hr hs hT hS hne]
              exact RegistryWF_mapSet (RegistryWF_mapDelete _ hwf1) rfl
      · obtain ⟨rb, he⟩ := handleMessage_not_rename now d hs hT
        rw [he]; exact hwf1

theorem mem_sweepClosed {now : Nat} {m : Registry} {k : String} {s : Session}
    (hmem : (k, s) ∈ m) (hstale : stale now s = true) (hrs : s.readyState = 1) :
    k ∈ sweepClosed now m := by
  unfold sweepClosed
  exact List.mem_map_of_mem _ (List.mem_filter.mpr ⟨hmem, by simp [hstale, hrs]⟩)

/-! ### Concrete fixtures for closed instances -/

/-- A concrete session registered under key "A". -/
def sessA : Session := ⟨"A", 1, 1, "192.168.1.2", 0, 0⟩

/-- A concrete session registered under key "B". -/
def sessB : Session := ⟨"B", 2, 1, "192.168.1.3", 0, 0⟩

/-- A robot capability reporting a 1920×1080 screen with the cursor at
(500, 500). -/
def rob0 : RobotState := ⟨1920, 1080, 500, 500, [], []⟩

/-- Handler state of connection "A" with sessions "A" and "B" registered. -/
def stAB : ConnState := ⟨[("A", sessA), ("B", sessB)], some rob0, "A"⟩

/-- Handler state of connection "A" with only session "A" registered. -/
def stA : ConnState := ⟨[("A", sessA)], some rob0, "A"⟩

/-- Handler state of connection "A" when RobotJS failed to load. -/
def stANoRobot : ConnState := ⟨[("A", sessA)], none, "A"⟩

/-- Shared server state with sessions "A" and "B" registered. -/
def svAB : ServerState := ⟨[("A", sessA), ("B", sessB)], some rob0⟩

/-- Session "A" dispatching `move {deltaX: 10, deltaY: 0}` at time `t`. -/
def evMoveA (t : Nat) : String × Nat × InMsg := ("A", t, .parsed (moveMsg 10 0))

/-- Session "B" dispatching `move {deltaX: -4, deltaY: 0}` at time `t`. -/
def evMoveB (t : Nat) : String × Nat × InMsg := ("B", t, .parsed (moveMsg (-4) 0))

theorem ServerState.robot_mk (m : Registry) (rb : Option RobotState) :
    (⟨m, rb⟩ : ServerState).robot = rb := rfl

theorem applyEvent_move (sv : ServerState) (r : RobotState) (s : Session) (k : String)
    (t : Nat) (dx dy : Int) (hr : sv.robot = some r) (hs : mapGet sv.sessions k = some s) :
    applyEvent sv (k, t, .parsed (moveMsg dx dy)) =
      ⟨mapSet sv.sessions k { s with lastActivity := t },
       some { r with mouseX := max 0 (min (r.width - 1) (r.mouseX + dx)),
                     mouseY := max 0 (min (r.height - 1) (r.mouseY + dy)) }⟩ := by
  show (⟨(handleMessage ⟨sv.sessions, sv.robot, k⟩ t (.parsed (moveMsg dx dy))).sessions,
        (handleMessage ⟨sv.sessions, sv.robot, k⟩ t (.parsed (moveMsg dx dy))).robot⟩ :
      ServerState) = _
  rw [handleMessage_move t dx dy hr hs]

theorem applyEvents_moveA_moveB (t1 t2 : Nat) :
    (applyEvents svAB [evMoveA t1, evMoveB t2]).robot =
      some { rob0 with mouseX := 506, mouseY := 500 } := by
  have h1 := applyEvent_move svAB rob0 sessA "A" t1 10 0 rfl (by decide)
  have hx1 : ({ rob0 with
      mouseX := max 0 (min (rob0.width - 1) (rob0.mouseX + 10)),
      mouseY := max 0 (min (rob0.height - 1) (rob0.mouseY + 0)) } : RobotState) =
      { rob0 with mouseX := 510, mouseY := 500 } := by decide
  rw [hx1] at h1
  have hsB : mapGet (mapSet svAB.sessions "A" { sessA with lastActivity := t1 }) "B" =
      some sessB := by
    rw [mapGet_mapSet_ne _ _ (by decide : ("B" : String) ≠ "A")]
    decide
  have h2 := applyEvent_move
    ⟨mapSet svAB.sessions "A" { sessA with lastActivity := t1 },
     some { rob0 with mouseX := 510, mouseY := 500 }⟩
    { rob0 with mouseX := 510, mouseY := 500 } sessB "B" t2 (-4) 0 rfl hsB
  show (applyEvent (applyEvent svAB (evMoveA t1)) (evMoveB t2)).robot = _
  rw [evMoveA, evMoveB, h1, h2, ServerState.robot_mk]
  decide

theorem applyEvents_moveB_moveA (t1 t2 : Nat) :
    (applyEvents svAB [evMoveB t2, evMoveA t1]).robot =
      some { rob0 with mouseX := 506, mouseY := 500 } := by
  have h1 := applyEvent_move svAB rob0 sessB "B" t2 (-4) 0 rfl (by decide)
  have hx1 : ({ rob0 with
      mouseX := max 0 (min (rob0.width - 1) (rob0.mouseX + (-4))),
      mouseY := max 0 (min (rob0.height - 1) (rob0.mouseY + 0)) } : RobotState) =
      { rob0 with mouseX := 496, mouseY := 500 } := by decide
  rw [hx1] at h1
  have hsA : mapGet (mapSet svAB.sessions "B" { sessB with lastActivity := t2 }) "A" =
      some sessA := by
    rw [mapGet_mapSet_ne _ _ (by decide : ("A" : String) ≠ "B")]
    decide
  have h2 := applyEvent_move
    ⟨mapSet svAB.sessions "B" { sessB with lastActivity := t2 },
     some { rob0 with mouseX := 496, mouseY := 500 }⟩
    { rob0 with mouseX := 496, mouseY := 500 } sessA "A" t1 10 0 rfl hsA
  show (applyEvent (applyEvent svAB (evMoveB t2)) (evMoveA t1)).robot = _
  rw [evMoveB, evMoveA, h1, h2, ServerState.robot_mk]
  decide

/-- The `setSessionId` wire message requesting the new id "B". -/
def renameMsgB : InMsg := .parsed ⟨some "setSessionId", some "B", .undef, .undef⟩

/-! ### Claims -/

/-- C1: every dispatched `move` command with numeric deltas `(dx, dy)`,
given the capability's pointer position `(px, py)` and screen bounds
`(w, h)`, sets the pointer to exactly
`(clamp(px + dx, 0, w - 1), clamp(py + dy, 0, h - 1))`, and (for positive
screen bounds) that position lies within `[0, w-1] × [0, h-1]`. -/
theorem C1_move_sets_clamped_position (st : ConnState) (r : RobotState) (s : Session)
    (now : Nat) (dx dy : Int)
    (hr : st.robot = some r) (hs : mapGet st.sessions st.wsKey = some s) :
    (handleMessage st now (.parsed (moveMsg dx dy))).robot =
      some { r with
        mouseX := max 0 (min (r.width - 1) (r.mouseX + dx)),
        mouseY := max 0 (min (r.height - 1) (r.mouseY + dy)) } ∧
    (1 ≤ r.width → 1 ≤ r.height →
      0 ≤ max 0 (min (r.width - 1) (r.mouseX + dx)) ∧
      max 0 (min (r.width - 1) (r.mouseX + dx)) ≤ r.width - 1 ∧
      0 ≤ max 0 (min (r.height - 1) (r.mouseY + dy)) ∧
      max 0 (min (r.height - 1) (r.mouseY + dy)) ≤ r.height - 1) := by
  constructor
  · rw [handleMessage_move now dx dy hr hs]
  · intro hw hh
    refine ⟨le_max_left _ _, ?_, le_max_left _ _, ?_⟩ <;> omega

/-- Witness for C1: cursor at (500,500) on a 1920×1080 screen, inbound
`move {deltaX: 10, deltaY: -5}` yields cursor (510,495). -/
theorem C1_move_sets_clamped_position_wit :
    (handleMessage stA 5 (.parsed (moveMsg 10 (-5)))).robot =
      some { rob0 with mouseX := 510, mouseY := 495 } := by
  have h := (C1_move_sets_clamped_position stA rob0 sessA 5 10 (-5) rfl (by decide)).1
  rw [h]
  decide

/-- C2: two sessions concurrently issuing `Move{+10,0}` and `Move{-4,0}`
from pointer position (500,500) on a 1920×1080 screen: each dispatch is
one synchronous handler invocation (Node's event loop makes its
read-compute-write atomic with respect to the other), so under every
interleaving — that is, either order of the two atomic dispatches — the
final pointer position is (506,500) and no update is lost. -/
theorem C2_concurrent_moves_no_lost_update (t1 t2 : Nat)
    (l : List (String × Nat × InMsg)) (hp : l.Perm [evMoveA t1, evMoveB t2]) :
    (applyEvents svAB l).robot = some { rob0 with mouseX := 506, mouseY := 500 } := by
  have hlen : l.length = 2 := by simpa using hp.length_eq
  rcases l with _ | ⟨a, _ | ⟨b, _ | ⟨c, l3⟩⟩⟩
  · simp at hlen
  · simp at hlen
  · have hmem : a ∈ [evMoveA t1, evMoveB t2] := hp.subset (List.mem_cons_self a [b])
    rcases List.mem_cons.mp hmem with ha | ha
    · subst ha
      have hb : b = evMoveB t2 := by
        simpa using List.perm_singleton.mp ((List.perm_cons (evMoveA t1)).mp hp)
      rw [hb]
      exact applyEvents_moveA_moveB t1 t2
    · have ha2 : a = evMoveB t2 := by simpa using ha
      subst ha2
      have hswap : ([evMoveA t1, evMoveB t2] : List (String × Nat × InMsg)).Perm
          [evMoveB t2, evMoveA t1] := List.Perm.swap (evMoveB t2) (evMoveA t1) []
      have hb : b = evMoveA t1 := by
        simpa using List.perm_singleton.mp ((List.perm_cons (evMoveB t2)).mp (hp.trans hswap))
      rw [hb]
      exact applyEvents_moveB_moveA t1 t2
  · simp only [List.length_cons] at hlen
    omega

/-- Witness for C2 at the interleaving issuing session "A"'s move first. -/
theorem C2_concurrent_moves_no_lost_update_wit :
    (applyEvents svAB [evMoveA 3, evMoveB 4]).robot =
      some { rob0 with mouseX := 506, mouseY := 500 } :=
  C2_concurrent_moves_no_lost_update 3 4 [evMoveA 3, evMoveB 4] (List.Perm.refl _)

/-- C3 counterexample: with sessions "A" and "B" live, connection "A"
requesting `setSessionId` to "B" is NOT rejected: the entry at "B" is
overwritten with the renaming session's record (id updated to "B", no
longer `sessB`), and the entry at "A" is removed — refuting "the rename
is rejected with a DuplicateSessionId error and both registry entries are
left untouched". -/
theorem C3_rename_collision_rejected_cex :
    mapGet (handleMessage stAB 9 renameMsgB).sessions "B" =
      some { sessA with id := "B", lastActivity := 9 } ∧
    mapGet (handleMessage stAB 9 renameMsgB).sessions "A" = none ∧
    some { sessA with id := "B", lastActivity := 9 } ≠ some sessB := by decide

/-- C3 amended: when `newId` already denotes a different live session,
the rename still proceeds: the registry entry at `newId` is overwritten
with the renaming session's record (its `id` set to `newId`,
`lastActivity` touched), the renaming session's old key is removed, the
connection addresses `newId` from then on, and the previously registered
session at `newId` is silently orphaned; no error is raised. -/
theorem C3_rename_collision_overwrites (st : ConnState) (r : RobotState)
    (s other : Session) (now : Nat) (newId : String)
    (hr : st.robot = some r) (hs : mapGet st.sessions st.wsKey = some s)
    (hother : mapGet st.sessions newId = some other)
    (hkey : newId ≠ st.wsKey) (hne : newId ≠ "") :
    mapGet (handleMessage st now
        (.parsed ⟨some "setSessionId", some newId, .undef, .undef⟩)).sessions newId =
      some { s with id := newId, lastActivity := now } ∧
    mapGet (handleMessage st now
        (.parsed ⟨some "setSessionId", some newId, .undef, .undef⟩)).sessions st.wsKey =
      none ∧
    (handleMessage st now
        (.parsed ⟨some "setSessionId", some newId, .undef, .undef⟩)).wsKey = newId := by
  rw [handleMessage_rename now _ hr hs rfl rfl hne]
  refine ⟨mapGet_mapSet_self _ _ _, ?_, rfl⟩
  rw [mapGet_mapSet_ne _ _ (Ne.symm hkey)]
  exact mapGet_mapDelete_self _ _

/-- Witness for the amended C3 at the concrete collision of
`C3_rename_collision_rejected_cex`. -/
theorem C3_rename_collision_overwrites_wit :
    mapGet (handleMessage stAB 9
        (.parsed ⟨some "setSessionId", some "B", .undef, .undef⟩)).sessions "B" =
      some { sessA with id := "B", lastActivity := 9 } :=
  (C3_rename_collision_overwrites stAB rob0 sessA sessB 9 "B" rfl (by decide) (by decide)
    (by decide) (by decide)).1

/-- C4 counterexample: with the robot capability unavailable, a
`setSessionId` message does NOT take effect: the connection still
addresses "A", no entry appears at "B", and the record at "A" changed
only in `lastActivity` — refuting "RenameSession still takes effect". -/
theorem C4_norobot_rename_effective_cex :
    (handleMessage stANoRobot 9 renameMsgB).wsKey = "A" ∧
    mapGet (handleMessage stANoRobot 9 renameMsgB).sessions "B" = none ∧
    mapGet (handleMessage stANoRobot 9 renameMsgB).sessions "A" =
      some { sessA with lastActivity := 9 } := by decide

/-- C4 amended: when the Pointer Capability is unavailable, EVERY command
— `RenameSession` included — is a logged no-op except for the touch of
the receiving session's `lastActivity` (the guard returns before the
switch); processing any message is total (never raises) and leaves the
connection's addressing key, the robot state and every other registry
entry unchanged. -/
theorem C4_norobot_noop (st : ConnState) (now : Nat) (d : MsgData)
    (hr : st.robot = none) :
    (mapGet st.sessions st.wsKey = none → handleMessage st now (.parsed d) = st) ∧
    (∀ s, mapGet st.sessions st.wsKey = some s →
      handleMessage st now (.parsed d) =
        { st with sessions := mapSet st.sessions st.wsKey { s with lastActivity := now } }) ∧
    handleMessage st now .malformed = st :=
  ⟨fun h => handleMessage_absent now d h,
   fun s hs => handleMessage_norobot now d hr hs, rfl⟩

/-- Witness for the amended C4: capability absent, a rename request only
touches `lastActivity`. -/
theorem C4_norobot_noop_wit :
    handleMessage stANoRobot 9 (.parsed ⟨some "setSessionId", some "B", .undef, .undef⟩) =
      { stANoRobot with
        sessions := mapSet stANoRobot.sessions stANoRobot.wsKey
          { sessA with lastActivity := 9 } } :=
  (C4_norobot_noop stANoRobot 9 ⟨some "setSessionId", some "B", .undef, .undef⟩ rfl).2.1
    sessA (by decide)

/-- C5: a message that fails to parse is dropped: the handler returns the
state unchanged (registry identical — in particular `lastActivity`
unchanged — addressing key unchanged, connection open) and never raises;
and `lastActivity` is mutated (to the receipt time) exactly on receipt of
a structurally valid (JSON-parseable) message whose session is live. -/
theorem C5_malformed_dropped (st : ConnState) (now : Nat) :
    handleMessage st now .malformed = st ∧
    (∀ d : MsgData, ∀ s : Session, mapGet st.sessions st.wsKey = some s →
      ∃ s2, mapGet (handleMessage st now (.parsed d)).sessions
          (handleMessage st now (.parsed d)).wsKey = some s2 ∧
        s2.lastActivity = now) :=
  ⟨rfl, fun d _ hs => handleMessage_touch now d hs⟩

/-- Witness for C5: a malformed payload leaves the concrete state intact,
while a valid `click` message advances `lastActivity` to the receipt
time. -/
theorem C5_malformed_dropped_wit :
    handleMessage stA 5 .malformed = stA ∧
    ∃ s2, mapGet (handleMessage stA 5
        (.parsed ⟨some "click", none, .undef, .undef⟩)).sessions
        (handleMessage stA 5 (.parsed ⟨some "click", none, .undef, .undef⟩)).wsKey =
      some s2 ∧ s2.lastActivity = 5 :=
  ⟨(C5_malformed_dropped stA 5).1,
   (C5_malformed_dropped stA 5).2 ⟨some "click", none, .undef, .undef⟩ sessA (by decide)⟩

/-- C6: for every reaper sweep at time `now` over a well-formed registry:
a registered session with `now - lastActivity > SESSION_TIMEOUT` is
removed from the registry by that sweep and its connection is closed
(`ws.close()` is invoked when the socket is open, readyState 1); a
session with `now - lastActivity ≤ SESSION_TIMEOUT` survives the sweep
with its record unchanged. -/
theorem C6_sweep_evicts_stale_keeps_fresh (now : Nat) (m : Registry) (k : String)
    (s : Session) (hwf : RegistryWF m) (hget : mapGet m k = some s) :
    (now - s.lastActivity > SESSION_TIMEOUT →
      mapGet (sweep now m) k = none ∧ (s.readyState = 1 → k ∈ sweepClosed now m)) ∧
    (now - s.lastActivity ≤ SESSION_TIMEOUT → mapGet (sweep now m) k = some s) := by
  have hf := mapGet_filter hwf.1 hget (fun e => !(stale now e.2))
  constructor
  · intro hst
    have hstale : stale now s = true := decide_eq_true hst
    constructor
    · show mapGet (m.filter fun e => !(stale now e.2)) k = none
      rw [hf]
      simp [hstale]
    · intro hrs
      exact mem_sweepClosed (mem_of_mapGet hget) hstale hrs
  · intro hle
    have hstale : stale now s = false := decide_eq_false (not_lt.mpr hle)
    show mapGet (m.filter fun e => !(stale now e.2)) k = some s
    rw [hf]
    simp [hstale]

/-- Witness for C6: at time 2000000 ms (past the 30-minute timeout) the
stale session "A" is removed and closed, while a freshly touched "B"
survives unchanged. -/
theorem C6_sweep_evicts_stale_keeps_fresh_wit :
    (mapGet (sweep 2000000 [("A", sessA), ("B", sessB)]) "A" = none ∧
      "A" ∈ sweepClosed 2000000 [("A", sessA), ("B", sessB)]) ∧
    mapGet (sweep 2000000 [("A", sessA), ("B", { sessB with lastActivity := 1999999 })])
      "B" = some { sessB with lastActivity := 1999999 } := by
  constructor
  · have h := (C6_sweep_evicts_stale_keeps_fresh 2000000 [("A", sessA), ("B", sessB)]
      "A" sessA (by decide) (by decide)).1 (by decide)
    exact ⟨h.1, h.2 rfl⟩
  · exact (C6_sweep_evicts_stale_keeps_fresh 2000000
      [("A", sessA), ("B", { sessB with lastActivity := 1999999 })]
      "B" { sessB with lastActivity := 1999999 } (by decide) (by decide)).2 (by decide)

/-- C7: the registry invariant — keys pairwise distinct among currently
registered sessions and each record's `id` equal to its key — is
preserved by every operation: connection accept (create), message
handling (touch and rename included), the reaper sweep (eviction), and
connection teardown (remove). -/
theorem C7_registry_ids_unique (m : Registry) (st : ConnState)
    (counter now t2 t3 wsId : Nat) (msg : InMsg) (ip k : String)
    (hm : RegistryWF m) (hst : RegistryWF st.sessions) :
    RegistryWF (connect m counter now ip wsId).1 ∧
    RegistryWF (handleMessage st t2 msg).sessions ∧
    RegistryWF (sweep t3 m) ∧
    RegistryWF (closeConn m k) := by
  refine ⟨?_, handleMessage_WF st t2 msg hst, ?_, ?_⟩
  · exact RegistryWF_mapSet hm rfl
  · exact RegistryWF_filter m _ hm
  · exact RegistryWF_mapDelete k hm

/-- Witness for C7 at concrete states, including a rename that collides
with the live session "B". -/
theorem C7_registry_ids_unique_wit :
    RegistryWF (connect [("A", sessA)] 0 7 "10.0.0.9" 3).1 ∧
    RegistryWF (handleMessage stAB 9 renameMsgB).sessions ∧
    RegistryWF (sweep 2000000 [("A", sessA)]) ∧
    RegistryWF (closeConn [("A", sessA)] "A") :=
  C7_registry_ids_unique [("A", sessA)] stAB 0 7 9 2000000 3 renameMsgB "10.0.0.9" "A"
    (by decide) (by decide)

/-- C8: after a successful rename of a registered session to a distinct
`newId`, the registry holds the original record under `newId` (same
`connectedAt`, same remote address, same connection handle; only `id` and
the touched `lastActivity` differ), lookup of the old key is absent, and
the connection addresses `newId` from then on. -/
theorem C8_rename_moves_record (st : ConnState) (r : RobotState) (s : Session)
    (now : Nat) (newId : String)
    (hr : st.robot = some r) (hs : mapGet st.sessions st.wsKey = some s)
    (hkey : newId ≠ st.wsKey) (hne : newId ≠ "") :
    mapGet (handleMessage st now
        (.parsed ⟨some "setSessionId", some newId, .undef, .undef⟩)).sessions newId =
      some { s with id := newId, lastActivity := now } ∧
    mapGet (handleMessage st now
        (.parsed ⟨some "setSessionId", some newId, .undef, .undef⟩)).sessions st.wsKey =
      none ∧
    (handleMessage st now
        (.parsed ⟨some "setSessionId", some newId, .undef, .undef⟩)).wsKey = newId ∧
    Session.connectedAt { s with id := newId, lastActivity := now } = s.connectedAt ∧
    Session.ip { s with id := newId, lastActivity := now } = s.ip ∧
    Session.wsId { s with id := newId, lastActivity := now } = s.wsId := by
  rw [handleMessage_rename now _ hr hs rfl rfl hne]
  refine ⟨mapGet_mapSet_self _ _ _, ?_, rfl, rfl, rfl, rfl⟩
  rw [mapGet_mapSet_ne _ _ (Ne.symm hkey)]
  exact mapGet_mapDelete_self _ _

/-- Witness for C8: renaming "A" to "C" moves the record. -/
theorem C8_rename_moves_record_wit :
    mapGet (handleMessage stA 9
        (.parsed ⟨some "setSessionId", some "C", .undef, .undef⟩)).sessions "C" =
      some { sessA with id := "C", lastActivity := 9 } ∧
    mapGet (handleMessage stA 9
        (.parsed ⟨some "setSessionId", some "C", .undef, .undef⟩)).sessions "A" = none := by
  have h := C8_rename_moves_record stA rob0 sessA 9 "C" rfl (by decide) (by decide) (by decide)
  exact ⟨h.1, h.2.1⟩

/-- C9 counterexample: a `move` message whose deltas are `null` — a
present but non-numeric field — does NOT make the clamp evaluate to NaN:
JS coerces `null` to 0, so from (500,500) on a 1920×1080 screen the clamp
evaluates to the in-range coordinate 500 and the pointer is moved —
refuting "the clamping computation evaluates on a non-number to NaN
rather than a coordinate in [0, width-1]". -/
theorem C9_nonnumeric_delta_nan_cex :
    isNumeric JSVal.jnull = false ∧
    moveClamp 1920 500 JSVal.jnull = JSNum.num 500 ∧
    (handleMessage stA 9 (.parsed ⟨some "move", none, .jnull, .jnull⟩)).robot =
      some { rob0 with mouseX := 500, mouseY := 500 } := by decide

/-- C9 amended: a message that parses as JSON with type `move` but whose
`deltaX` or `deltaY` field is ABSENT (undefined) is still treated as
structurally valid: it advances the session's `lastActivity`; the clamp
`Math.max(0, Math.min(bound - 1, cur + delta))` evaluates on each absent
axis to NaN rather than a coordinate; and any exception the capability
call raises on NaN is swallowed by the handler's catch, leaving the
connection open and the pointer state unchanged.  (Other non-numeric
values are instead coerced by JS arithmetic — e.g. `null` to 0 — and can
yield in-range coordinates.) -/
theorem C9_absent_delta_nan (st : ConnState) (r : RobotState) (s : Session)
    (now : Nat) (dX dY : JSVal)
    (hr : st.robot = some r) (hs : mapGet st.sessions st.wsKey = some s)
    (habs : dX = JSVal.undef ∨ dY = JSVal.undef) :
    (dX = JSVal.undef → moveClamp r.width r.mouseX dX = JSNum.nan) ∧
    (dY = JSVal.undef → moveClamp r.height r.mouseY dY = JSNum.nan) ∧
    handleMessage st now (.parsed ⟨some "move", none, dX, dY⟩) =
      { st with sessions := mapSet st.sessions st.wsKey { s with lastActivity := now } } := by
  refine ⟨fun h => by subst h; rfl, fun h => by subst h; rfl, ?_⟩
  apply handleMessage_move_nan now dX dY hr hs
  rcases habs with h | h
  · subst h; exact Or.inl rfl
  · subst h; exact Or.inr rfl

/-- Witness for the amended C9, once with `deltaX` absent and once with
`deltaY` absent: the clamp on the absent axis is NaN and the handler only
touches `lastActivity`; the robot is untouched. -/
theorem C9_absent_delta_nan_wit :
    (moveClamp rob0.width rob0.mouseX JSVal.undef = JSNum.nan ∧
      handleMessage stA 9 (.parsed ⟨some "move", none, .undef, .jnum 3⟩) =
        { stA with sessions := mapSet stA.sessions stA.wsKey { sessA with lastActivity := 9 } }) ∧
    (moveClamp rob0.height rob0.mouseY JSVal.undef = JSNum.nan ∧
      handleMessage stA 9 (.parsed ⟨some "move", none, .jnum 5, .undef⟩) =
        { stA with sessions := mapSet stA.sessions stA.wsKey { sessA with lastActivity := 9 } }) := by
  have h1 := C9_absent_delta_nan stA rob0 sessA 9 JSVal.undef (.jnum 3) rfl (by decide)
    (Or.inl rfl)
  have h2 := C9_absent_delta_nan stA rob0 sessA 9 (.jnum 5) JSVal.undef rfl (by decide)
    (Or.inr rfl)
  exact ⟨⟨h1.1 rfl, h1.2.2⟩, ⟨h2.2.1 rfl, h2.2.2⟩⟩

/-- C10: every inbound message whose type is not `setSessionId` (move,
click, rightClick, scroll, or any unknown type) leaves the registry's key
set and the connection's addressing key unchanged, leaves every other
session's record untouched, and changes the receiving session's record
only in `lastActivity`. -/
theorem C10_non_rename_frame (st : ConnState) (now : Nat) (d : MsgData)
    (hT : d.type ≠ some "setSessionId") :
    keysOf (handleMessage st now (.parsed d)).sessions = keysOf st.sessions ∧
    (handleMessage st now (.parsed d)).wsKey = st.wsKey ∧
    (∀ q, q ≠ st.wsKey →
      mapGet (handleMessage st now (.parsed d)).sessions q = mapGet st.sessions q) ∧
    (∀ s, mapGet st.sessions st.wsKey = some s →
      mapGet (handleMessage st now (.parsed d)).sessions st.wsKey =
        some { s with lastActivity := now }) := by
  cases hs : mapGet st.sessions st.wsKey with
  | none =>
    rw [handleMessage_absent now d hs]
    exact ⟨rfl, rfl, fun q _ => rfl, fun s h => Option.noConfusion h⟩
  | some s0 =>
    obtain ⟨rb, he⟩ := handleMessage_not_rename now d hs hT
    rw [he]
    have hhk : mapHasKey st.sessions st.wsKey = true := by
      rw [← mapGet_isSome_eq, hs]
      rfl
    refine ⟨keysOf_mapSet_of_hasKey _ hhk, rfl, ?_, ?_⟩
    · intro q hq
      exact mapGet_mapSet_ne _ _ hq
    · intro s h
      have hss : s0 = s := Option.some_injective _ h
      rw [← hss]
      exact mapGet_mapSet_self _ _ _

/-- Witness for C10 at a concrete `scroll` message: keys and the "B"
record unchanged, "A" touched only in `lastActivity`. -/
theorem C10_non_rename_frame_wit :
    keysOf (handleMessage stAB 9 (.parsed ⟨some "scroll", none, .jnum 2, .jnum 3⟩)).sessions =
      keysOf stAB.sessions ∧
    (handleMessage stAB 9 (.parsed ⟨some "scroll", none, .jnum 2, .jnum 3⟩)).wsKey =
      stAB.wsKey ∧
    mapGet (handleMessage stAB 9 (.parsed ⟨some "scroll", none, .jnum 2, .jnum 3⟩)).sessions
      "B" = mapGet stAB.sessions "B" ∧
    mapGet (handleMessage stAB 9 (.parsed ⟨some "scroll", none, .jnum 2, .jnum 3⟩)).sessions
      "A" = some { sessA with lastActivity := 9 } := by
  have h := C10_non_rename_frame stAB 9 ⟨some "scroll", none, .jnum 2, .jnum 3⟩ (by decide)
  exact ⟨h.1, h.2.1, h.2.2.1 "B" (by decide), h.2.2.2 sessA (by decide)⟩

end RemoteControl
